import Mathlib

/-!
Verification of the FoodRater review kiosk (src/food.py).

The development embeds the persistence store (SQLite table `reviews` with an
AUTOINCREMENT primary key), the idempotent schema migration `init_db`, the
AI pipeline orchestration of the voice-input handler (with the remote
transcribe/translate/polish calls abstracted as function parameters, i.e.
mocked), the batch analysis `analyze_common_issues`, and the bulk-delete
confirmation state machine of the UI.
-/

namespace FoodRater

/-- One row of the `reviews` table: columns id, rating, english_text,
telugu_text, ai_review, timestamp (food.py lines 19-34, 52). -/
structure Review where
  id : Nat
  rating : String
  english_text : String
  telugu_text : String
  ai_review : String
  timestamp : String
deriving DecidableEq, Repr

/-- The persistent store: the bag of rows of the `reviews` table plus the
AUTOINCREMENT sequence counter.  SQLite AUTOINCREMENT assigns each inserted
row an id strictly larger than any id ever used, and `DELETE FROM reviews`
does not reset the sequence. -/
structure Store where
  nextId : Nat
  rows : List Review
deriving DecidableEq, Repr

/-- A wall-clock time as passed to `datetime.now().strftime`. -/
structure DateTime where
  year : Nat
  month : Nat
  day : Nat
  hour : Nat
  minute : Nat
  second : Nat
deriving DecidableEq, Repr

/-- Decimal digits of a natural number, most significant first
(the rendering `strftime` uses for each numeric field). -/
def natDigits (n : Nat) : List Char :=
  if h : n < 10 then [Char.ofNat (48 + n)]
  else natDigits (n / 10) ++ [Char.ofNat (48 + n % 10)]
termination_by n
decreasing_by exact Nat.div_lt_self (by omega) (by omega)

/-- Zero-padding to width two, as `strftime` does for `%m %d %H %M %S`. -/
def pad2 (n : Nat) : List Char :=
  if n < 10 then '0' :: natDigits n else natDigits n

/-- `datetime.strftime("%Y-%m-%d %H:%M:%S")` (food.py line 46). -/
def strftime (dt : DateTime) : String :=
  ⟨natDigits dt.year ++ '-' :: pad2 dt.month ++ '-' :: pad2 dt.day ++
    ' ' :: pad2 dt.hour ++ ':' :: pad2 dt.minute ++ ':' :: pad2 dt.second⟩

/-- `save_review` (food.py lines 36-47): INSERT a new row whose id is the
next AUTOINCREMENT value and whose timestamp is `now` formatted. -/
def save_review (st : Store) (rating english telugu ai_review : String)
    (now : DateTime) : Store :=
  { nextId := st.nextId + 1
    rows := st.rows ++
      [{ id := st.nextId, rating := rating, english_text := english,
         telugu_text := telugu, ai_review := ai_review,
         timestamp := strftime now }] }

/-- The comparison realised by `ORDER BY id DESC`. -/
def byIdDesc : Review → Review → Prop := fun a b => b.id ≤ a.id

instance : DecidableRel byIdDesc := fun a b => Nat.decLe b.id a.id

instance : IsTotal Review byIdDesc :=
  ⟨fun a b => (Nat.le_total b.id a.id).imp id id⟩

instance : IsTrans Review byIdDesc :=
  ⟨fun _ _ _ hab hbc => Nat.le_trans hbc hab⟩

/-- `get_reviews` (food.py lines 49-55): SELECT all rows ORDER BY id DESC. -/
def get_reviews (st : Store) : List Review :=
  st.rows.insertionSort byIdDesc

/-- `delete_review` (food.py lines 57-59): DELETE FROM reviews WHERE id = ?. -/
def delete_review (st : Store) (review_id : Nat) : Store :=
  { st with rows := st.rows.filter (fun r => !(r.id == review_id)) }

/-- `delete_all_reviews` (food.py lines 61-63): DELETE FROM reviews. -/
def delete_all_reviews (st : Store) : Store :=
  { st with rows := [] }

/-! ### Schema migration -/

/-- `ALTER TABLE reviews ADD COLUMN c` guarded by `if c not in cols`. -/
def addColIfMissing (cols : List String) (c : String) : List String :=
  if c ∈ cols then cols else cols ++ [c]

/-- `init_db` (food.py lines 16-34) acting on the schema: `none` is a
database without a `reviews` table, `some cols` a table with columns
`cols`.  CREATE TABLE IF NOT EXISTS makes the two-column table only when
absent, then each of the four data columns is added when missing. -/
def init_db (schema : Option (List String)) : List String :=
  let cols := schema.getD ["id", "rating"]
  let cols := addColIfMissing cols "english_text"
  let cols := addColIfMissing cols "telugu_text"
  let cols := addColIfMissing cols "ai_review"
  addColIfMissing cols "timestamp"

/-! ### AI pipeline -/

/-- Python `str.strip()`: drop whitespace from both ends. -/
def pyStrip (s : String) : String :=
  ⟨(((s.data.dropWhile Char.isWhitespace).reverse.dropWhile
      Char.isWhitespace).reverse)⟩

/-- `analyze_common_issues` (food.py lines 103-129).  The remote chat call
is abstracted as the parameter `summarize`; rows whose english_text is
falsy (empty, or NULL rendered here as the empty string) are filtered out
by `if r[2]` before joining. -/
def analyze_common_issues (summarize : String → String)
    (reviews_data : List Review) : String :=
  if reviews_data = [] then "No reviews available for analysis."
  else
    let all_reviews := String.intercalate "\n"
      ((reviews_data.filter (fun r => !(r.english_text == ""))).map
        (fun r => "Rating: " ++ r.rating ++ ", Review: " ++ r.english_text))
    if pyStrip all_reviews = "" then "No review text available for analysis."
    else summarize all_reviews

/-! ### Voice-input handler -/

/-- The per-submission session state: the selected rating
(`st.session_state.rating`), the last processed audio clip
(`st.session_state.last_audio`, `none` when the key is absent), and the
store.  Audio clips are identified by an abstract handle (a `Nat`), since
the code deduplicates by object comparison, not content. -/
structure SubmitState where
  rating : Option String
  last_audio : Option Nat
  store : Store
deriving DecidableEq, Repr

/-- The voice-input handler (food.py lines 224-238) with the remote calls
mocked: `tF` is `transcribe_audio`, `trF text language` is
`translate(text, language)`, `pF` is `clean_review`.  When an audio clip
and a rating are both present and the clip differs from the last processed
one, the pipeline runs, the review is saved, and the rating is reset. -/
def handleVoice (tF : Nat → String) (trF : String → String → String)
    (pF : String → String) (now : DateTime)
    (s : SubmitState) (audio : Option Nat) : SubmitState :=
  match audio, s.rating with
  | some a, some r =>
      if s.last_audio = some a then s
      else
        let raw := tF a
        let english := trF raw "English"
        let telugu := trF raw "Telugu"
        let ai_review := pF english
        { rating := none
          last_audio := some a
          store := save_review s.store r english telugu ai_review now }
  | _, _ => s

/-! ### Bulk-delete confirmation state machine -/

/-- The events of the bulk-delete flow (food.py lines 247-279): pressing
the Delete ALL button, pressing Cancel, pressing Verify with the typed
password, and pressing the final Yes-Delete button. -/
inductive DelEvent where
  | clickDeleteAll : DelEvent
  | cancel : DelEvent
  | verify : String → DelEvent
  | confirmYes : DelEvent
deriving DecidableEq, Repr

/-- The session state driving the bulk-delete flow plus the store. -/
structure UIState where
  confirm_delete_all : Bool
  password_entered : Bool
  store : Store
deriving DecidableEq, Repr

/-- The hardcoded secret compared on Verify (food.py line 262). -/
def deleteAllSecret : String := "121212"

/-- One step of the bulk-delete flow.  The Cancel/Verify buttons are only
rendered while `confirm_delete_all ∧ ¬password_entered`, and the final
Cancel/Yes pair only while `confirm_delete_all ∧ password_entered`, so
events arriving in other states do nothing. -/
def delStep (s : UIState) (e : DelEvent) : UIState :=
  match e with
  | DelEvent.clickDeleteAll =>
      { s with confirm_delete_all := true, password_entered := false }
  | DelEvent.cancel =>
      if s.confirm_delete_all then
        { s with confirm_delete_all := false, password_entered := false }
      else s
  | DelEvent.verify password =>
      if s.confirm_delete_all && !s.password_entered then
        if password = deleteAllSecret then { s with password_entered := true }
        else s
      else s
  | DelEvent.confirmYes =>
      if s.confirm_delete_all && s.password_entered then
        { confirm_delete_all := false
          password_entered := false
          store := delete_all_reviews s.store }
      else s

/-- Run the flow over a sequence of events. -/
def runDel (s : UIState) (es : List DelEvent) : UIState :=
  es.foldl delStep s

/-- Whether one event, arriving in state `s`, fires `delete_all_reviews`
(the body of the Yes-Delete button at food.py line 275). -/
def firesDeleteAll (s : UIState) (e : DelEvent) : Bool :=
  match e with
  | DelEvent.confirmYes => s.confirm_delete_all && s.password_entered
  | _ => false

/-- Whether `delete_all_reviews` is invoked anywhere along the run of the
flow on the event sequence `es` from state `s`. -/
def runFiresDeleteAll (s : UIState) : List DelEvent → Bool
  | [] => false
  | e :: es => firesDeleteAll s e || runFiresDeleteAll (delStep s e) es

/-! ### Sample data used by the witnesses -/

def sampleReview1 : Review :=
  { id := 1, rating := "tasty", english_text := "Good food",
    telugu_text := "మంచి ఆహారం", ai_review := "The food was good.",
    timestamp := "2025-01-01 10:00:00" }

def sampleReview2 : Review :=
  { id := 2, rating := "okay", english_text := "It was fine",
    telugu_text := "సరే", ai_review := "The food was fine.",
    timestamp := "2025-01-02 10:00:00" }

def sampleStore : Store := { nextId := 3, rows := [sampleReview1, sampleReview2] }

/-! ### Helper lemmas -/

lemma get_reviews_perm (st : Store) : List.Perm (get_reviews st) st.rows :=
  List.perm_insertionSort byIdDesc st.rows

lemma mem_addColIfMissing_self (cols : List String) (c : String) :
    c ∈ addColIfMissing cols c := by
  unfold addColIfMissing
  split
  · assumption
  · simp

lemma mem_addColIfMissing_of_mem (cols : List String) (c d : String)
    (h : d ∈ cols) : d ∈ addColIfMissing cols c := by
  unfold addColIfMissing
  split
  · exact h
  · exact List.mem_append_left _ h

lemma addColIfMissing_of_mem (cols : List String) (c : String)
    (h : c ∈ cols) : addColIfMissing cols c = cols := by
  unfold addColIfMissing
  exact if_pos h

/-- Claim C6: calling `init()` twice in succession yields the same schema as
calling it once; from a fresh database the `reviews` table has exactly the
columns id, rating, english_text, telugu_text, ai_review, timestamp, with no
duplicates. -/
theorem init_db_idempotent_schema :
    (∀ s : Option (List String), init_db (some (init_db s)) = init_db s)
    ∧ init_db none =
        ["id", "rating", "english_text", "telugu_text", "ai_review", "timestamp"]
    ∧ (init_db none).Nodup := by
  refine ⟨fun s => ?_, by decide, by decide⟩
  have he : "english_text" ∈ init_db s := by
    unfold init_db
    exact mem_addColIfMissing_of_mem _ _ _ (mem_addColIfMissing_of_mem _ _ _
      (mem_addColIfMissing_of_mem _ _ _ (mem_addColIfMissing_self _ _)))
  have ht : "telugu_text" ∈ init_db s := by
    unfold init_db
    exact mem_addColIfMissing_of_mem _ _ _ (mem_addColIfMissing_of_mem _ _ _
      (mem_addColIfMissing_self _ _))
  have ha : "ai_review" ∈ init_db s := by
    unfold init_db
    exact mem_addColIfMissing_of_mem _ _ _ (mem_addColIfMissing_self _ _)
  have hts : "timestamp" ∈ init_db s := by
    unfold init_db
    exact mem_addColIfMissing_self _ _
  conv_lhs => rw [init_db]
  rw [Option.getD_some, addColIfMissing_of_mem _ _ he, addColIfMissing_of_mem _ _ ht,
    addColIfMissing_of_mem _ _ ha, addColIfMissing_of_mem _ _ hts]

/-- Claim C10: deleting an id that is not present succeeds and leaves the
store unchanged. -/
theorem delete_absent_id_noop (st : Store) (i : Nat)
    (h : ∀ r ∈ st.rows, r.id ≠ i) :
    delete_review st i = st := by
  cases st with
  | mk nextId rows =>
    simp only [delete_review, Store.mk.injEq, true_and]
    rw [List.filter_eq_self]
    intro r hr
    simpa using h r hr

theorem delete_absent_id_noop_witness :
    delete_review sampleStore 7 = sampleStore :=
  delete_absent_id_noop sampleStore 7 (by decide)

/-- Claim C9: with no stored reviews, `analyze_common_issues` returns the
fixed no-reviews string; with reviews whose english_text is all empty or
missing, it returns the fixed no-text string.  In both cases the result does
not depend on the remote `summarize` call at all. -/
theorem analyze_fixed_responses (summarize : String → String)
    (data : List Review) :
    (data = [] →
      analyze_common_issues summarize data = "No reviews available for analysis.")
    ∧ (data ≠ [] → (∀ r ∈ data, r.english_text = "") →
      analyze_common_issues summarize data = "No review text available for analysis.") := by
  constructor
  · intro h
    subst h
    rfl
  · intro hne hall
    have hf : data.filter (fun r => !(r.english_text == "")) = [] := by
      rw [List.filter_eq_nil_iff]
      intro r hr
      simp [hall r hr]
    rw [analyze_common_issues, if_neg hne]
    simp only [hf, List.map_nil]
    rw [if_pos]
    rfl

theorem analyze_fixed_responses_witness :
    analyze_common_issues (fun s => s)
        [{ id := 1, rating := "tasty", english_text := "", telugu_text := "",
           ai_review := "", timestamp := "" }] =
      "No review text available for analysis." :=
  (analyze_fixed_responses (fun s => s) _).2 (by decide) (by decide)

/-- Claim C2: along any run of the bulk-delete flow that starts with the
password not yet verified and never sees a Verify event carrying the exact
secret "121212", `delete_all()` is never invoked and the store is unchanged. -/
theorem bulk_delete_gated_by_secret (s : UIState) (es : List DelEvent)
    (hpw : s.password_entered = false)
    (hsec : ∀ p, DelEvent.verify p ∈ es → p ≠ deleteAllSecret) :
    runFiresDeleteAll s es = false ∧ (runDel s es).store = s.store := by
  induction es generalizing s with
  | nil => exact ⟨rfl, rfl⟩
  | cons e es ih =>
    have hstep : (delStep s e).password_entered = false
        ∧ (delStep s e).store = s.store
        ∧ firesDeleteAll s e = false := by
      cases e with
      | clickDeleteAll => simp [delStep, firesDeleteAll]
      | cancel =>
          refine ⟨?_, ?_, rfl⟩ <;> · simp only [delStep]; split <;> simp [hpw]
      | verify p =>
          have hp : p ≠ deleteAllSecret := hsec p (List.mem_cons_self _ _)
          refine ⟨?_, ?_, rfl⟩ <;>
            · simp only [delStep, if_neg hp]
              split <;> simp [hpw]
      | confirmYes =>
          simp [delStep, firesDeleteAll, hpw]
    obtain ⟨h1, h2, h3⟩ := hstep
    have ih' := ih (delStep s e) h1 (fun p hp => hsec p (List.mem_cons_of_mem _ hp))
    constructor
    · simp only [runFiresDeleteAll, h3, Bool.false_or]
      exact ih'.1
    · show (runDel (delStep s e) es).store = s.store
      rw [ih'.2, h2]

def sampleUIState : UIState :=
  { confirm_delete_all := false, password_entered := false, store := sampleStore }

def sampleDelEvents : List DelEvent :=
  [DelEvent.clickDeleteAll, DelEvent.verify "000000", DelEvent.confirmYes]

theorem bulk_delete_gated_by_secret_witness :
    runFiresDeleteAll sampleUIState sampleDelEvents = false
    ∧ (runDel sampleUIState sampleDelEvents).store = sampleUIState.store :=
  bulk_delete_gated_by_secret sampleUIState sampleDelEvents rfl
    (by
      intro p hp
      simp only [sampleDelEvents, List.mem_cons, List.not_mem_nil, or_false] at hp
      rcases hp with h1 | h2 | h3
      · exact absurd h1 (by simp)
      · rw [DelEvent.verify.injEq] at h2
        subst h2
        decide
      · exact absurd h3 (by simp))

def sampleDT : DateTime :=
  { year := 2025, month := 6, day := 1, hour := 12, minute := 30, second := 5 }

lemma length_filter_ne_of_nodup (rows : List Review) (i : Nat)
    (hnodup : (rows.map Review.id).Nodup) (hmem : i ∈ rows.map Review.id) :
    (rows.filter (fun r => !(r.id == i))).length + 1 = rows.length := by
  induction rows with
  | nil => simp at hmem
  | cons r rs ih =>
    simp only [List.map_cons, List.nodup_cons, List.mem_cons] at hnodup hmem
    by_cases h : r.id = i
    · have hall : rs.filter (fun x => !(x.id == i)) = rs := by
        rw [List.filter_eq_self]
        intro x hx
        have hxne : x.id ≠ i := by
          intro he
          exact hnodup.1 (h ▸ he ▸ List.mem_map_of_mem Review.id hx)
        simpa using hxne
      simp [List.filter_cons, h, hall]
    · have hmem' : i ∈ rs.map Review.id := by
        rcases hmem with h1 | h2
        · exact absurd h1.symm h
        · exact h2
      have := ih hnodup.2 hmem'
      simp only [List.filter_cons]
      rw [if_pos (by simpa using h)]
      simp only [List.length_cons]
      omega

/-- Claim C4: for an id present in the store (ids distinct, as the PRIMARY
KEY guarantees), `delete(id)` removes exactly that record and leaves all
other records; `delete_all()` empties the table. -/
theorem delete_exact_and_delete_all (st : Store) (i : Nat)
    (hnodup : (st.rows.map Review.id).Nodup)
    (hmem : i ∈ st.rows.map Review.id) :
    (∀ r, r ∈ get_reviews (delete_review st i) ↔ r ∈ get_reviews st ∧ r.id ≠ i)
    ∧ (get_reviews (delete_review st i)).length + 1 = (get_reviews st).length
    ∧ get_reviews (delete_all_reviews st) = [] := by
  refine ⟨?_, ?_, rfl⟩
  · intro r
    simp [get_reviews, delete_review, List.mem_filter]
  · have e1 := (get_reviews_perm (delete_review st i)).length_eq
    have e2 := (get_reviews_perm st).length_eq
    rw [e1, e2]
    exact length_filter_ne_of_nodup st.rows i hnodup hmem

theorem delete_exact_and_delete_all_witness :
    (get_reviews (delete_review sampleStore 1)).length + 1 =
      (get_reviews sampleStore).length :=
  (delete_exact_and_delete_all sampleStore 1 (by decide) (by decide)).2.1

/-- Claim C7: `list()` returns exactly the stored records, ordered
newest-first, i.e. in strictly decreasing order of id (ids being distinct by
the PRIMARY KEY). -/
theorem list_newest_first (st : Store)
    (h : (st.rows.map Review.id).Nodup) :
    List.Perm (get_reviews st) st.rows
    ∧ (get_reviews st).Pairwise (fun a b => b.id < a.id) := by
  have hperm := get_reviews_perm st
  refine ⟨hperm, ?_⟩
  have hsorted : (get_reviews st).Pairwise byIdDesc :=
    List.sorted_insertionSort byIdDesc st.rows
  have hnd : ((get_reviews st).map Review.id).Nodup :=
    ((hperm.map Review.id).nodup_iff).mpr h
  have hne : (get_reviews st).Pairwise (fun a b => a.id ≠ b.id) :=
    List.pairwise_map.mp hnd
  exact (hsorted.and hne).imp
    (fun hab => lt_of_le_of_ne hab.1 (Ne.symm hab.2))

theorem list_newest_first_witness :
    List.Perm (get_reviews sampleStore) sampleStore.rows
    ∧ (get_reviews sampleStore).Pairwise (fun a b => b.id < a.id) :=
  list_newest_first sampleStore (by decide)

/-- Claim C1: when every stored id is below the AUTOINCREMENT counter (the
invariant SQLite maintains), `save` makes `list()` contain exactly one new
record, carrying the submitted fields verbatim and an id strictly greater
than every id present before. -/
theorem save_adds_one_newest (st : Store)
    (rating english telugu ai_review : String) (now : DateTime)
    (hlt : ∀ r ∈ st.rows, r.id < st.nextId) :
    ∃ rec,
      List.Perm (get_reviews (save_review st rating english telugu ai_review now))
        (rec :: get_reviews st)
      ∧ rec ∉ get_reviews st
      ∧ rec.rating = rating ∧ rec.english_text = english
      ∧ rec.telugu_text = telugu ∧ rec.ai_review = ai_review
      ∧ ∀ r ∈ get_reviews st, r.id < rec.id := by
  refine ⟨{ id := st.nextId, rating := rating, english_text := english,
            telugu_text := telugu, ai_review := ai_review,
            timestamp := strftime now }, ?_, ?_, rfl, rfl, rfl, rfl, ?_⟩
  · exact ((get_reviews_perm _).trans (List.perm_append_singleton _ _)).trans
      ((get_reviews_perm st).symm.cons _)
  · intro hmem
    have h := hlt _ ((get_reviews_perm st).subset hmem)
    simp at h
  · intro r hr
    exact hlt r ((get_reviews_perm st).subset hr)

theorem save_adds_one_newest_witness :
    ∃ rec,
      List.Perm (get_reviews (save_review sampleStore "tasty" "E" "T" "A" sampleDT))
        (rec :: get_reviews sampleStore)
      ∧ rec ∉ get_reviews sampleStore
      ∧ rec.rating = "tasty" ∧ rec.english_text = "E"
      ∧ rec.telugu_text = "T" ∧ rec.ai_review = "A"
      ∧ ∀ r ∈ get_reviews sampleStore, r.id < rec.id :=
  save_adds_one_newest sampleStore "tasty" "E" "T" "A" sampleDT (by decide)

/-- Claim C5: the rating-selected→processing transition fires exactly when a
rating is selected, an audio clip is present, and the clip differs from the
last processed one; on firing, the handler saves the review and resets the
rating to none.  In every other situation the session state is untouched. -/
theorem voice_transition_spec (tF : Nat → String) (trF : String → String → String)
    (pF : String → String) (now : DateTime)
    (s : SubmitState) (audio : Option Nat) :
    (∀ a r, audio = some a → s.rating = some r → s.last_audio ≠ some a →
      handleVoice tF trF pF now s audio =
        { rating := none, last_audio := some a,
          store := save_review s.store r (trF (tF a) "English")
            (trF (tF a) "Telugu") (pF (trF (tF a) "English")) now })
    ∧ (audio = none → handleVoice tF trF pF now s audio = s)
    ∧ (s.rating = none → handleVoice tF trF pF now s audio = s)
    ∧ (∀ a, audio = some a → s.last_audio = some a →
      handleVoice tF trF pF now s audio = s) := by
  obtain ⟨rat, la, stor⟩ := s
  refine ⟨?_, ?_, ?_, ?_⟩
  · rintro a r rfl hr hne
    simp only at hr
    subst hr
    simp only at hne
    simp [handleVoice, hne]
  · rintro rfl
    simp [handleVoice]
  · intro hr
    simp only at hr
    subst hr
    cases audio <;> simp [handleVoice]
  · rintro a rfl hla
    simp only at hla
    subst hla
    cases rat <;> simp [handleVoice]

theorem voice_transition_spec_witness :
    handleVoice (fun _ => "raw") (fun t l => t ++ "|" ++ l)
        (fun t => "polished " ++ t) sampleDT
        { rating := some "tasty", last_audio := none, store := sampleStore }
        (some 7) =
      { rating := none, last_audio := some 7,
        store := save_review sampleStore "tasty" ("raw" ++ "|" ++ "English")
          ("raw" ++ "|" ++ "Telugu")
          ("polished " ++ ("raw" ++ "|" ++ "English")) sampleDT } :=
  (voice_transition_spec (fun _ => "raw") (fun t l => t ++ "|" ++ l)
    (fun t => "polished " ++ t) sampleDT
    { rating := some "tasty", last_audio := none, store := sampleStore }
    (some 7)).1 7 "tasty" rfl rfl (by simp)

/-- Claim C3: with the transcribe/translate/polish calls fixed (mocked), the
record the handler saves has english_text equal to the English translation
of the transcript, telugu_text equal to the Telugu translation of the
transcript, and ai_review equal to the polish of the English translation,
each verbatim. -/
theorem pipeline_outputs_verbatim (tF : Nat → String)
    (trF : String → String → String) (pF : String → String) (now : DateTime)
    (s : SubmitState) (a : Nat) (r : String)
    (hr : s.rating = some r) (ha : s.last_audio ≠ some a) :
    ∃ rec,
      (handleVoice tF trF pF now s (some a)).store.rows = s.store.rows ++ [rec]
      ∧ rec.english_text = trF (tF a) "English"
      ∧ rec.telugu_text = trF (tF a) "Telugu"
      ∧ rec.ai_review = pF (trF (tF a) "English")
      ∧ rec.rating = r := by
  obtain ⟨rat, la, stor⟩ := s
  simp only at hr ha
  subst hr
  simp only [handleVoice, if_neg ha]
  exact ⟨_, rfl, rfl, rfl, rfl, rfl⟩

theorem pipeline_outputs_verbatim_witness :
    ∃ rec,
      (handleVoice (fun _ => "raw") (fun t l => t ++ "|" ++ l)
          (fun t => "polished " ++ t) sampleDT
          { rating := some "okay", last_audio := some 3, store := sampleStore }
          (some 7)).store.rows = sampleStore.rows ++ [rec]
      ∧ rec.english_text = "raw" ++ "|" ++ "English"
      ∧ rec.telugu_text = "raw" ++ "|" ++ "Telugu"
      ∧ rec.ai_review = "polished " ++ ("raw" ++ "|" ++ "English")
      ∧ rec.rating = "okay" :=
  pipeline_outputs_verbatim (fun _ => "raw") (fun t l => t ++ "|" ++ l)
    (fun t => "polished " ++ t) sampleDT
    { rating := some "okay", last_audio := some 3, store := sampleStore }
    7 "okay" rfl (by simp)

/-! ### Timestamp format -/

/-- A decimal digit character. -/
def isDigit (c : Char) : Bool := 48 ≤ c.toNat && c.toNat ≤ 57

/-- Shape check for `YYYY-MM-DD HH:MM:SS`. -/
def timestampShape : List Char → Bool
  | [y1, y2, y3, y4, c1, m1, m2, c2, d1, d2, c3, h1, h2, c4, n1, n2, c5, s1, s2] =>
      isDigit y1 && isDigit y2 && isDigit y3 && isDigit y4 &&
      c1 == '-' && isDigit m1 && isDigit m2 && c2 == '-' &&
      isDigit d1 && isDigit d2 && c3 == ' ' &&
      isDigit h1 && isDigit h2 && c4 == ':' &&
      isDigit n1 && isDigit n2 && c5 == ':' &&
      isDigit s1 && isDigit s2
  | _ => false

/-- Whether a string matches the fixed format `YYYY-MM-DD HH:MM:SS`. -/
def isTimestampFormat (s : String) : Bool := timestampShape s.data

lemma natDigits_lt (n : Nat) (h : n < 10) :
    natDigits n = [Char.ofNat (48 + n)] := by
  rw [natDigits.eq_def, dif_pos h]

lemma natDigits_ge (n : Nat) (h : ¬n < 10) :
    natDigits n = natDigits (n / 10) ++ [Char.ofNat (48 + n % 10)] := by
  rw [natDigits.eq_def, dif_neg h]

lemma isDigit_ofNat (n : Nat) (h : n < 10) :
    isDigit (Char.ofNat (48 + n)) = true := by
  interval_cases n <;> decide

lemma pad2_shape (n : Nat) (h : n < 100) :
    ∃ a b, pad2 n = [a, b] ∧ isDigit a = true ∧ isDigit b = true := by
  by_cases h10 : n < 10
  · exact ⟨'0', Char.ofNat (48 + n),
      by rw [pad2, if_pos h10, natDigits_lt n h10], by decide, isDigit_ofNat n h10⟩
  · refine ⟨Char.ofNat (48 + n / 10), Char.ofNat (48 + n % 10), ?_,
      isDigit_ofNat _ (by omega), isDigit_ofNat _ (by omega)⟩
    rw [pad2, if_neg h10, natDigits_ge n h10, natDigits_lt (n / 10) (by omega)]
    rfl

lemma natDigits_four (y : Nat) (h1 : 1000 ≤ y) (h2 : y < 10000) :
    natDigits y = [Char.ofNat (48 + y / 10 / 10 / 10),
      Char.ofNat (48 + y / 10 / 10 % 10), Char.ofNat (48 + y / 10 % 10),
      Char.ofNat (48 + y % 10)] := by
  rw [natDigits_ge y (by omega), natDigits_ge (y / 10) (by omega),
    natDigits_ge (y / 10 / 10) (by omega),
    natDigits_lt (y / 10 / 10 / 10) (by omega)]
  rfl

lemma strftime_format (dt : DateTime) (hy1 : 1000 ≤ dt.year)
    (hy2 : dt.year < 10000) (hm : dt.month < 100) (hd : dt.day < 100)
    (hh : dt.hour < 100) (hn : dt.minute < 100) (hs : dt.second < 100) :
    isTimestampFormat (strftime dt) = true := by
  obtain ⟨m1, m2, hmq, hm1, hm2⟩ := pad2_shape dt.month hm
  obtain ⟨d1, d2, hdq, hd1, hd2⟩ := pad2_shape dt.day hd
  obtain ⟨h1, h2, hhq, hh1, hh2⟩ := pad2_shape dt.hour hh
  obtain ⟨n1, n2, hnq, hn1, hn2⟩ := pad2_shape dt.minute hn
  obtain ⟨s1, s2, hsq, hs1, hs2⟩ := pad2_shape dt.second hs
  have hyq := natDigits_four dt.year hy1 hy2
  have hy3 := isDigit_ofNat (dt.year / 10 / 10 / 10) (by omega)
  have hy4 := isDigit_ofNat (dt.year / 10 / 10 % 10) (by omega)
  have hy5 := isDigit_ofNat (dt.year / 10 % 10) (by omega)
  have hy6 := isDigit_ofNat (dt.year % 10) (by omega)
  rw [isTimestampFormat, strftime]
  simp only [hyq, hmq, hdq, hhq, hnq, hsq, List.cons_append, List.nil_append,
    List.append_assoc]
  simp [timestampShape, hy3, hy4, hy5, hy6, hm1, hm2, hd1, hd2, hh1, hh2,
    hn1, hn2, hs1, hs2]

/-- Claim C8: the record written by `save` carries a timestamp in the fixed
format `YYYY-MM-DD HH:MM:SS` (for any wall-clock time whose fields lie in
the ranges `datetime.now()` produces). -/
theorem save_timestamp_format (st : Store)
    (rating english telugu ai_review : String) (dt : DateTime)
    (hy1 : 1000 ≤ dt.year) (hy2 : dt.year < 10000) (hm : dt.month < 100)
    (hd : dt.day < 100) (hh : dt.hour < 100) (hn : dt.minute < 100)
    (hs : dt.second < 100) :
    ∃ rec,
      (save_review st rating english telugu ai_review dt).rows =
        st.rows ++ [rec]
      ∧ isTimestampFormat rec.timestamp = true :=
  ⟨_, rfl, strftime_format dt hy1 hy2 hm hd hh hn hs⟩

theorem save_timestamp_format_witness :
    ∃ rec,
      (save_review sampleStore "tasty" "E" "T" "A" sampleDT).rows =
        sampleStore.rows ++ [rec]
      ∧ isTimestampFormat rec.timestamp = true :=
  save_timestamp_format sampleStore "tasty" "E" "T" "A" sampleDT
    (by decide) (by decide) (by decide) (by decide) (by decide) (by decide)
    (by decide)

end FoodRater
